import Mathlib

/-!
Verification of the FloodSimSG proactive-alert subsystem.

Shallow embedding of `src/ai/audio_narrator.py` and `src/ai/proactive_alerts.py`.
Machine floats in the source (rainfall values, timestamps in seconds) are
modelled as rationals (`ℚ`); Python `int` values as `Int`/`Nat`.

The audio queue is `queue.PriorityQueue`, which is CPython's `heapq` on a
list.  `AudioQueueItem` is declared `@dataclass(order=True)` with every field
except `priority` marked `compare=False`, so `a < b` is `a.priority < b.priority`.
The heapq functions below are direct translations of CPython's
`heapq.heappush` / `heapq.heappop` (`_siftdown` bubbles an item towards the
root, `_siftup` moves a hole to a leaf and then calls `_siftdown`).
-/

namespace FloodSim

/-- `AudioQueueItem` from `audio_narrator.py` (lines 25-32).  `timestamp` is a
wall-clock instant in seconds; comparison uses only `priority`. -/
structure AudioQueueItem where
  priority : Int
  timestamp : ℚ
  text : String
  alertId : String
  interruptCurrent : Bool
  deriving DecidableEq, Repr

instance : Inhabited AudioQueueItem := ⟨⟨0, 0, "", "", false⟩⟩

/-- `a < b` on `AudioQueueItem`: dataclass `order=True` with only `priority`
participating in comparison. -/
def itemLt (a b : AudioQueueItem) : Prop := a.priority < b.priority

instance : DecidablePred fun p : AudioQueueItem × AudioQueueItem => itemLt p.1 p.2 :=
  fun _ => inferInstanceAs (Decidable (_ < _))

instance (a b : AudioQueueItem) : Decidable (itemLt a b) :=
  inferInstanceAs (Decidable (_ < _))

/-- CPython `heapq._siftdown(heap, startpos, pos)` after reading
`newitem = heap[pos]`: bubble `newitem` up towards `startpos`, moving larger
parents down.  The source's locals are `parentpos = (pos - 1) >> 1` and
`parent = heap[parentpos]`, inlined here. -/
def siftdownAux (heap : List AudioQueueItem) (startpos : Nat) (newitem : AudioQueueItem)
    (pos : Nat) : List AudioQueueItem :=
  if startpos < pos then
    if newitem.priority < (heap.getD ((pos - 1) / 2) default).priority then
      siftdownAux (heap.set pos (heap.getD ((pos - 1) / 2) default)) startpos newitem
        ((pos - 1) / 2)
    else
      heap.set pos newitem
  else
    heap.set pos newitem
termination_by pos
decreasing_by omega

/-- CPython `heapq._siftdown`. -/
def siftdown (heap : List AudioQueueItem) (startpos pos : Nat) : List AudioQueueItem :=
  siftdownAux heap startpos (heap.getD pos default) pos

/-- CPython `heapq.heappush`: append then sift the new item up. -/
def heappush (heap : List AudioQueueItem) (item : AudioQueueItem) : List AudioQueueItem :=
  siftdown (heap ++ [item]) 0 heap.length

/-- The child index CPython `heapq._siftup` follows: `childpos = 2*pos + 1`,
`rightpos = childpos + 1`, and `childpos = rightpos` when the right child
exists and `not heap[childpos] < heap[rightpos]`. -/
def pickChild (heap : List AudioQueueItem) (pos : Nat) : Nat :=
  if 2 * pos + 2 < heap.length ∧
      ¬ (heap.getD (2 * pos + 1) default).priority <
          (heap.getD (2 * pos + 2) default).priority then
    2 * pos + 2
  else
    2 * pos + 1

/-- CPython `heapq._siftup(heap, pos)` after reading `newitem = heap[pos]`:
move the hole at `pos` down to a leaf, always following the child chosen by
`pickChild`, then place `newitem` and call `_siftdown`. -/
def siftupAux (heap : List AudioQueueItem) (startpos : Nat) (newitem : AudioQueueItem)
    (pos : Nat) : List AudioQueueItem :=
  if 2 * pos + 1 < heap.length then
    siftupAux (heap.set pos (heap.getD (pickChild heap pos) default)) startpos newitem
      (pickChild heap pos)
  else
    siftdownAux (heap.set pos newitem) startpos newitem pos
termination_by heap.length - pos
decreasing_by
  simp only [List.length_set, pickChild]
  split <;> omega

/-- CPython `heapq._siftup`. -/
def siftup (heap : List AudioQueueItem) (pos : Nat) : List AudioQueueItem :=
  siftupAux heap pos (heap.getD pos default) pos

/-- CPython `heapq.heappop`: pop the last element; if the heap is still
non-empty, move it to the root and sift down.  The empty-heap `IndexError`
is modelled as `none`. -/
def heappop (heap : List AudioQueueItem) :
    Option (AudioQueueItem × List AudioQueueItem) :=
  match heap with
  | [] => none
  | _ :: _ =>
    let lastelt := heap.getLast?.getD default
    let rest := heap.dropLast
    match rest with
    | [] => some (lastelt, [])
    | _ :: _ => some (rest.getD 0 default, siftup (rest.set 0 lastelt) 0)

/-- Enqueue a list of items in order (`PriorityQueue.put` calls `heappush`). -/
def heapPushAll (heap : List AudioQueueItem) (items : List AudioQueueItem) :
    List AudioQueueItem :=
  items.foldl heappush heap

/-- Drain the heap by repeated `heappop`, fuelled by the heap size. -/
def heapPopAllAux : Nat → List AudioQueueItem → List AudioQueueItem
  | 0, _ => []
  | fuel + 1, heap =>
    match heappop heap with
    | none => []
    | some (x, rest) => x :: heapPopAllAux fuel rest

/-- Dequeue every item (`PriorityQueue.get` calls `heappop` until empty). -/
def heapPopAll (heap : List AudioQueueItem) : List AudioQueueItem :=
  heapPopAllAux heap.length heap

/-! ### Basic facts about the sift operations -/

theorem getD_set_ne (l : List AudioQueueItem) (i j : Nat) (x : AudioQueueItem)
    (h : i ≠ j) : (l.set i x).getD j default = l.getD j default := by
  simp [List.getD_eq_getElem?_getD, List.getElem?_set_ne h]

theorem getD_set_self (l : List AudioQueueItem) (i : Nat) (x : AudioQueueItem)
    (h : i < l.length) : (l.set i x).getD i default = x := by
  simp [List.getD_eq_getElem?_getD, List.getElem?_set_self h]

theorem pickChild_lb (heap : List AudioQueueItem) (pos : Nat) :
    2 * pos + 1 ≤ pickChild heap pos := by
  unfold pickChild
  split <;> omega

theorem pickChild_ub (heap : List AudioQueueItem) (pos : Nat)
    (h : 2 * pos + 1 < heap.length) : pickChild heap pos < heap.length := by
  unfold pickChild
  split <;> omega

theorem siftdownAux_length (s : Nat) (new : AudioQueueItem) :
    ∀ (pos : Nat) (heap : List AudioQueueItem),
      (siftdownAux heap s new pos).length = heap.length := by
  intro pos
  induction pos using Nat.strong_induction_on with
  | _ pos IH =>
    intro heap
    rw [siftdownAux]
    split
    · split
      · rw [IH ((pos - 1) / 2) (by omega)]
        simp
      · simp
    · simp

theorem siftupAux_length (s : Nat) (new : AudioQueueItem) :
    ∀ (n pos : Nat) (heap : List AudioQueueItem), heap.length - pos ≤ n →
      (siftupAux heap s new pos).length = heap.length := by
  intro n
  induction n with
  | zero =>
    intro pos heap hle
    rw [siftupAux]
    split
    · omega
    · rw [siftdownAux_length]
      simp
  | succ n IHn =>
    intro pos heap hle
    rw [siftupAux]
    split
    · next h =>
      have h1 := pickChild_lb heap pos
      rw [IHn (pickChild heap pos) _ (by simp only [List.length_set]; omega)]
      simp
    · rw [siftdownAux_length]
      simp

/-! ### Permutation facts: sifting only rearranges elements -/

theorem count_set_add (l : List AudioQueueItem) (i : Nat) (x a : AudioQueueItem)
    (h : i < l.length) :
    (l.set i x).count a + (if l.getD i default = a then 1 else 0) =
      l.count a + (if x = a then 1 else 0) := by
  rw [List.set_eq_take_append_cons_drop, if_pos h]
  conv_rhs => rw [← List.take_append_drop i l, List.drop_eq_getElem_cons h]
  rw [List.getD_eq_getElem l default h]
  simp only [List.count_append, List.count_cons]
  simp only [beq_iff_eq]
  by_cases h1 : l[i] = a <;> by_cases h2 : x = a <;> simp [h1, h2] <;> omega

theorem set_set_perm (l : List AudioQueueItem) (i j : Nat) (x : AudioQueueItem)
    (hi : i < l.length) (hj : j < l.length) (hij : i ≠ j) :
    ((l.set i (l.getD j default)).set j x).Perm (l.set i x) := by
  rw [List.perm_iff_count]
  intro a
  have h1 := count_set_add l i (l.getD j default) a hi
  have h2 := count_set_add (l.set i (l.getD j default)) j x a (by simpa using hj)
  have h3 := count_set_add l i x a hi
  rw [getD_set_ne l i j _ hij] at h2
  omega

theorem siftdownAux_perm (s : Nat) (new : AudioQueueItem) :
    ∀ (pos : Nat) (heap : List AudioQueueItem), pos < heap.length →
      (siftdownAux heap s new pos).Perm (heap.set pos new) := by
  intro pos
  induction pos using Nat.strong_induction_on with
  | _ pos IH =>
    intro heap hpos
    rw [siftdownAux]
    split
    · next hs =>
      split
      · next hlt =>
        have hpp : (pos - 1) / 2 < heap.length := by omega
        have h2 := IH ((pos - 1) / 2) (by omega)
          (heap.set pos (heap.getD ((pos - 1) / 2) default)) (by simpa using hpp)
        exact h2.trans (set_set_perm heap pos ((pos - 1) / 2) new hpos hpp (by omega))
      · exact List.Perm.refl _
    · exact List.Perm.refl _

theorem set_getD_self (l : List AudioQueueItem) (i : Nat) (h : i < l.length) :
    l.set i (l.getD i default) = l := by
  rw [List.set_eq_take_append_cons_drop, if_pos h, List.getD_eq_getElem l default h]
  conv_rhs => rw [← List.take_append_drop i l, List.drop_eq_getElem_cons h]

theorem siftupAux_perm (s : Nat) (new : AudioQueueItem) :
    ∀ (n pos : Nat) (heap : List AudioQueueItem), heap.length - pos ≤ n →
      pos < heap.length → (siftupAux heap s new pos).Perm (heap.set pos new) := by
  intro n
  induction n with
  | zero =>
    intro pos heap hle hpos
    rw [siftupAux]
    split
    · omega
    · have := siftdownAux_perm s new pos (heap.set pos new) (by simpa using hpos)
      rw [List.set_set] at this
      exact this
  | succ n IHn =>
    intro pos heap hle hpos
    rw [siftupAux]
    split
    · next h =>
      have h1 := pickChild_lb heap pos
      have h2 := pickChild_ub heap pos h
      have h3 := IHn (pickChild heap pos)
        (heap.set pos (heap.getD (pickChild heap pos) default))
        (by simp only [List.length_set]; omega) (by simpa using h2)
      exact h3.trans (set_set_perm heap pos (pickChild heap pos) new hpos h2 (by omega))
    · have := siftdownAux_perm s new pos (heap.set pos new) (by simpa using hpos)
      rw [List.set_set] at this
      exact this

theorem heappush_perm (heap : List AudioQueueItem) (item : AudioQueueItem) :
    (heappush heap item).Perm (item :: heap) := by
  unfold heappush siftdown
  have hlen : heap.length < (heap ++ [item]).length := by simp
  have hperm := siftdownAux_perm 0 ((heap ++ [item]).getD heap.length default)
    heap.length (heap ++ [item]) hlen
  rw [set_getD_self _ _ hlen] at hperm
  exact hperm.trans (List.perm_append_singleton item heap)

/-! ### The binary-heap invariant and its preservation -/

/-- The array `l` satisfies the binary-heap property: every non-root entry is
`≥` its parent (by priority, the only field `AudioQueueItem` compares). -/
def IsHeap (l : List AudioQueueItem) : Prop :=
  ∀ j, j < l.length → 0 < j →
    (l.getD ((j - 1) / 2) default).priority ≤ (l.getD j default).priority

theorem isHeap_nil : IsHeap [] := by
  intro j hj
  simp at hj

theorem siftdownAux_isHeap :
    ∀ (pos : Nat) (l : List AudioQueueItem) (new : AudioQueueItem),
      pos < l.length →
      (∀ j, j < l.length → 0 < j → j ≠ pos → (j - 1) / 2 ≠ pos →
        (l.getD ((j - 1) / 2) default).priority ≤ (l.getD j default).priority) →
      (∀ j, j < l.length → (j - 1) / 2 = pos → 0 < j →
        new.priority ≤ (l.getD j default).priority) →
      (∀ j, j < l.length → (j - 1) / 2 = pos → 0 < j → 0 < pos →
        (l.getD ((pos - 1) / 2) default).priority ≤ (l.getD j default).priority) →
      IsHeap (siftdownAux l 0 new pos) := by
  intro pos
  induction pos using Nat.strong_induction_on with
  | _ pos IH =>
    intro l new hpos hA hB1 hB2
    rw [siftdownAux]
    split
    · next hs =>
      split
      · next hlt =>
        -- moved the parent down into `pos`; the hole is now at `(pos-1)/2`
        have hpplt : (pos - 1) / 2 < pos := by omega
        have hpp : (pos - 1) / 2 < l.length := by omega
        refine IH ((pos - 1) / 2) hpplt _ new (by simpa using hpp) ?_ ?_ ?_
        · intro j hj hj0 hjp hpjp
          simp only [List.length_set] at hj
          by_cases hje : j = pos
          · subst hje
            exact absurd rfl hpjp
          · by_cases hpe : (j - 1) / 2 = pos
            · rw [hpe, getD_set_self l pos _ hpos, getD_set_ne l pos j _ (Ne.symm hje)]
              exact hB2 j hj hpe hj0 (by omega)
            · rw [getD_set_ne l pos j _ (Ne.symm hje), getD_set_ne l pos _ _ (Ne.symm hpe)]
              exact hA j hj hj0 hje hpe
        · intro j hj hjp hj0
          simp only [List.length_set] at hj
          by_cases hje : j = pos
          · subst hje
            rw [getD_set_self l j _ hpos]
            exact le_of_lt hlt
          · rw [getD_set_ne l pos j _ (Ne.symm hje)]
            have h1 := hA j hj hj0 hje (by omega)
            rw [hjp] at h1
            calc new.priority ≤ (l.getD ((pos - 1) / 2) default).priority := le_of_lt hlt
              _ ≤ _ := h1
        · intro j hj hjp hj0 hpp0
          simp only [List.length_set] at hj
          have hgp : ((pos - 1) / 2 - 1) / 2 ≠ pos := by omega
          rw [getD_set_ne l pos _ _ (Ne.symm hgp)]
          have hedge : (l.getD (((pos - 1) / 2 - 1) / 2) default).priority ≤
              (l.getD ((pos - 1) / 2) default).priority :=
            hA ((pos - 1) / 2) hpp hpp0 (by omega) (by omega)
          by_cases hje : j = pos
          · subst hje
            rw [getD_set_self l j _ hpos]
            exact hedge
          · rw [getD_set_ne l pos j _ (Ne.symm hje)]
            have h2 := hA j hj hj0 hje (by omega)
            rw [hjp] at h2
            exact hedge.trans h2
      · next hlt =>
        -- `newitem` is not smaller than the parent: place it at `pos`
        intro j hj hj0
        simp only [List.length_set] at hj
        by_cases hje : j = pos
        · subst hje
          rw [getD_set_self l j _ hpos, getD_set_ne l j _ _ (by omega)]
          exact le_of_not_lt hlt
        · by_cases hpe : (j - 1) / 2 = pos
          · rw [hpe, getD_set_self l pos _ hpos, getD_set_ne l pos j _ (Ne.symm hje)]
            exact hB1 j hj hpe hj0
          · rw [getD_set_ne l pos j _ (Ne.symm hje), getD_set_ne l pos _ _ (Ne.symm hpe)]
            exact hA j hj hj0 hje hpe
    · next hs =>
      -- `pos = 0`: place `newitem` at the root
      have hp0 : pos = 0 := by omega
      subst hp0
      intro j hj hj0
      simp only [List.length_set] at hj
      have hje : j ≠ 0 := by omega
      by_cases hpe : (j - 1) / 2 = 0
      · rw [hpe, getD_set_self l 0 _ hpos, getD_set_ne l 0 j _ (Ne.symm hje)]
        exact hB1 j hj hpe hj0
      · rw [getD_set_ne l 0 j _ (Ne.symm hje), getD_set_ne l 0 _ _ (Ne.symm hpe)]
        exact hA j hj hj0 (by omega) (by omega)

theorem pickChild_eq_or (heap : List AudioQueueItem) (pos : Nat) :
    pickChild heap pos = 2 * pos + 1 ∨ pickChild heap pos = 2 * pos + 2 := by
  unfold pickChild
  split
  · exact Or.inr rfl
  · exact Or.inl rfl

theorem pickChild_parent (heap : List AudioQueueItem) (pos : Nat) :
    (pickChild heap pos - 1) / 2 = pos := by
  rcases pickChild_eq_or heap pos with h | h <;> rw [h] <;> omega

theorem pickChild_min (heap : List AudioQueueItem) (pos : Nat) (s : Nat)
    (hs : s < heap.length) (hpar : (s - 1) / 2 = pos) (hs0 : 0 < s) :
    (heap.getD (pickChild heap pos) default).priority ≤
      (heap.getD s default).priority := by
  have hcase : s = 2 * pos + 1 ∨ s = 2 * pos + 2 := by omega
  unfold pickChild
  split
  · next hcond =>
    rcases hcase with h | h <;> subst h
    · exact le_of_not_lt hcond.2
    · exact le_refl _
  · next hcond =>
    rcases hcase with h | h <;> subst h
    · exact le_refl _
    · rcases not_and_or.mp hcond with h2 | h2
      · omega
      · exact le_of_lt (not_not.mp h2)

theorem siftupAux_isHeap :
    ∀ (n pos : Nat) (l : List AudioQueueItem) (new : AudioQueueItem),
      l.length - pos ≤ n → pos < l.length →
      (∀ j, j < l.length → 0 < j → j ≠ pos → (j - 1) / 2 ≠ pos →
        (l.getD ((j - 1) / 2) default).priority ≤ (l.getD j default).priority) →
      (∀ j, j < l.length → (j - 1) / 2 = pos → 0 < j → 0 < pos →
        (l.getD ((pos - 1) / 2) default).priority ≤ (l.getD j default).priority) →
      IsHeap (siftupAux l 0 new pos) := by
  intro n
  induction n with
  | zero =>
    intro pos l new hle hpos hA hD
    rw [siftupAux]
    split
    · omega
    · next hch =>
      refine siftdownAux_isHeap pos (l.set pos new) new (by simpa using hpos) ?_ ?_ ?_
      · intro j hj hj0 hjp hpjp
        simp only [List.length_set] at hj
        rw [getD_set_ne l pos j _ (Ne.symm hjp), getD_set_ne l pos _ _ (Ne.symm hpjp)]
        exact hA j hj hj0 hjp hpjp
      · intro j hj hjp hj0
        simp only [List.length_set] at hj
        omega
      · intro j hj hjp hj0 _
        simp only [List.length_set] at hj
        omega
  | succ n IHn =>
    intro pos l new hle hpos hA hD
    rw [siftupAux]
    split
    · next hch =>
      have hc1 := pickChild_lb l pos
      have hc2 := pickChild_ub l pos hch
      have hcp := pickChild_parent l pos
      refine IHn (pickChild l pos) (l.set pos (l.getD (pickChild l pos) default)) new
        (by simp only [List.length_set]; omega) (by simpa using hc2) ?_ ?_
      · intro j hj hj0 hjc hpjc
        simp only [List.length_set] at hj
        by_cases hje : j = pos
        · subst hje
          have hj1 : 0 < j := hj0
          rw [getD_set_self l j _ hpos, getD_set_ne l j _ _ (by omega)]
          exact hD (pickChild l j) hc2 hcp (by omega) hj1
        · by_cases hpe : (j - 1) / 2 = pos
          · rw [hpe, getD_set_self l pos _ hpos, getD_set_ne l pos j _ (Ne.symm hje)]
            exact pickChild_min l pos j hj hpe hj0
          · rw [getD_set_ne l pos j _ (Ne.symm hje), getD_set_ne l pos _ _ (Ne.symm hpe)]
            exact hA j hj hj0 hje hpe
      · intro j hj hjc hj0 hc0
        simp only [List.length_set] at hj
        have hjpos : j ≠ pos := by omega
        rw [hcp, getD_set_self l pos _ hpos, getD_set_ne l pos j _ (Ne.symm hjpos)]
        have h1 := hA j hj hj0 hjpos (by omega)
        rw [hjc] at h1
        exact h1
    · next hch =>
      refine siftdownAux_isHeap pos (l.set pos new) new (by simpa using hpos) ?_ ?_ ?_
      · intro j hj hj0 hjp hpjp
        simp only [List.length_set] at hj
        rw [getD_set_ne l pos j _ (Ne.symm hjp), getD_set_ne l pos _ _ (Ne.symm hpjp)]
        exact hA j hj hj0 hjp hpjp
      · intro j hj hjp hj0
        simp only [List.length_set] at hj
        omega
      · intro j hj hjp hj0 _
        simp only [List.length_set] at hj
        omega

theorem heappush_isHeap (heap : List AudioQueueItem) (item : AudioQueueItem)
    (hH : IsHeap heap) : IsHeap (heappush heap item) := by
  unfold heappush siftdown
  refine siftdownAux_isHeap heap.length (heap ++ [item]) _ (by simp) ?_ ?_ ?_
  · intro j hj hj0 hjp hpjp
    simp only [List.length_append, List.length_cons, List.length_nil] at hj
    have hjlt : j < heap.length := by omega
    rw [List.getD_append _ _ _ _ hjlt, List.getD_append _ _ _ _ (by omega)]
    exact hH j hjlt hj0
  · intro j hj hjp hj0
    simp only [List.length_append, List.length_cons, List.length_nil] at hj
    omega
  · intro j hj hjp hj0 _
    simp only [List.length_append, List.length_cons, List.length_nil] at hj
    omega

theorem getD_dropLast (l : List AudioQueueItem) (j : Nat)
    (h : j < l.dropLast.length) :
    l.dropLast.getD j default = l.getD j default := by
  have h' : j < l.length := by
    simp only [List.length_dropLast] at h
    omega
  rw [List.getD_eq_getElem _ _ h, List.getD_eq_getElem _ _ h']
  exact List.getElem_dropLast l j h

theorem isHeap_root_le (l : List AudioQueueItem) (hH : IsHeap l) :
    ∀ j, j < l.length →
      (l.getD 0 default).priority ≤ (l.getD j default).priority := by
  intro j
  induction j using Nat.strong_induction_on with
  | _ j IH =>
    intro hj
    rcases Nat.eq_zero_or_pos j with h0 | h0
    · subst h0
      exact le_refl _
    · exact (IH ((j - 1) / 2) (by omega) (by omega)).trans (hH j hj h0)

theorem heappop_core (x le : AudioQueueItem) (tl : List AudioQueueItem)
    (hH : IsHeap ((x :: tl) ++ [le])) :
    IsHeap (siftup (le :: tl) 0) ∧ (siftup (le :: tl) 0).Perm (le :: tl) ∧
      (siftup (le :: tl) 0).length = tl.length + 1 := by
  have hgd : ∀ k, 0 < k → k < tl.length + 1 →
      (le :: tl).getD k default = ((x :: tl) ++ [le]).getD k default := by
    intro k hk0 hklt
    rw [List.getD_append _ _ _ _ (by simp only [List.length_cons]; omega)]
    obtain ⟨k', rfl⟩ : ∃ k', k = k' + 1 := ⟨k - 1, by omega⟩
    rfl
  refine ⟨?_, ?_, ?_⟩
  · unfold siftup
    refine siftupAux_isHeap (le :: tl).length 0 (le :: tl) _ (by omega) (by simp) ?_ ?_
    · intro j hj hj0 hjp hpjp
      simp only [List.length_cons] at hj
      rw [hgd j hj0 (by omega), hgd ((j - 1) / 2) (by omega) (by omega)]
      exact hH j (by simp only [List.length_append, List.length_cons]; omega) hj0
    · intro j hj hjp hj0 h0
      exact absurd h0 (lt_irrefl 0)
  · unfold siftup
    have hperm := siftupAux_perm 0 ((le :: tl).getD 0 default) (le :: tl).length 0
      (le :: tl) (by omega) (by simp)
    rw [set_getD_self _ _ (by simp)] at hperm
    exact hperm
  · unfold siftup
    rw [siftupAux_length 0 _ (le :: tl).length 0 (le :: tl) (by omega)]
    simp

theorem heappop_spec (heap : List AudioQueueItem) (hne : heap ≠ [])
    (hH : IsHeap heap) :
    ∃ rest, heappop heap = some (heap.getD 0 default, rest) ∧ IsHeap rest ∧
      heap.Perm (heap.getD 0 default :: rest) ∧ rest.length + 1 = heap.length := by
  obtain ⟨a, heap', rfl⟩ := List.exists_cons_of_ne_nil hne
  cases heap' with
  | nil =>
    exact ⟨[], rfl, isHeap_nil, List.Perm.refl _, rfl⟩
  | cons b t =>
    have hne2 : (b :: t) ≠ [] := by simp
    have hle : (a :: b :: t).getLast?.getD default = (b :: t).getLast hne2 := by
      rw [List.getLast?_eq_getLast (a :: b :: t) (by simp), Option.getD_some,
        List.getLast_cons hne2]
    have hdecomp : (a :: b :: t) = (a :: (b :: t).dropLast) ++ [(b :: t).getLast hne2] := by
      have h1 := List.dropLast_append_getLast hne2
      calc a :: b :: t = a :: ((b :: t).dropLast ++ [(b :: t).getLast hne2]) := by rw [h1]
        _ = _ := rfl
    have hpop : heappop (a :: b :: t) =
        some (a, siftup ((b :: t).getLast hne2 :: (b :: t).dropLast) 0) := by
      rw [← hle]
      rfl
    obtain ⟨hHr, hpr, hlenr⟩ := heappop_core a ((b :: t).getLast hne2)
      ((b :: t).dropLast) (by rw [← hdecomp]; exact hH)
    refine ⟨_, hpop, hHr, ?_, ?_⟩
    · have h2 : ((b :: t).dropLast ++ [(b :: t).getLast hne2]).Perm
          ((b :: t).getLast hne2 :: (b :: t).dropLast) :=
        List.perm_append_singleton _ _
      have h3 := (h2.trans hpr.symm).cons a
      have h4 : b :: t = (b :: t).dropLast ++ [(b :: t).getLast hne2] :=
        (List.dropLast_append_getLast hne2).symm
      rw [show ((a :: b :: t).getD 0 default) = a from rfl]
      conv_lhs => rw [h4]
      exact h3
    · rw [hlenr]
      simp

/-- Repeatedly popping a heap yields its contents in weakly ascending
priority order. -/
theorem heapPopAllAux_perm_sorted :
    ∀ (fuel : Nat) (heap : List AudioQueueItem), heap.length ≤ fuel → IsHeap heap →
      (heapPopAllAux fuel heap).Perm heap ∧
        List.Pairwise (fun a b : AudioQueueItem => a.priority ≤ b.priority)
          (heapPopAllAux fuel heap) := by
  intro fuel
  induction fuel with
  | zero =>
    intro heap hle _
    have : heap = [] := List.eq_nil_of_length_eq_zero (by omega)
    subst this
    exact ⟨List.Perm.refl _, List.Pairwise.nil⟩
  | succ fuel IH =>
    intro heap hle hH
    rcases eq_or_ne heap [] with hnil | hne
    · subst hnil
      exact ⟨List.Perm.refl _, List.Pairwise.nil⟩
    · obtain ⟨rest, hpop, hHr, hperm, hlen⟩ := heappop_spec heap hne hH
      have hstep : heapPopAllAux (fuel + 1) heap =
          heap.getD 0 default :: heapPopAllAux fuel rest := by
        rw [heapPopAllAux, hpop]
      obtain ⟨ihp, ihs⟩ := IH rest (by omega) hHr
      rw [hstep]
      constructor
      · exact (List.Perm.cons _ ihp).trans hperm.symm
      · rw [List.pairwise_cons]
        refine ⟨?_, ihs⟩
        intro b hb
        have hbrest : b ∈ rest := ihp.mem_iff.mp hb
        have hbheap : b ∈ heap := hperm.mem_iff.mpr (List.mem_cons_of_mem _ hbrest)
        obtain ⟨j, hj, hjb⟩ := List.mem_iff_getElem.mp hbheap
        have := isHeap_root_le heap hH j hj
        rw [List.getD_eq_getElem _ _ hj, hjb] at this
        exact this

/-- Pushing a list of items onto a heap preserves the heap invariant and the
multiset of elements. -/
theorem heapPushAll_isHeap_perm :
    ∀ (items heap : List AudioQueueItem), IsHeap heap →
      IsHeap (heapPushAll heap items) ∧
        (heapPushAll heap items).Perm (heap ++ items) := by
  intro items
  induction items with
  | nil =>
    intro heap hH
    exact ⟨hH, by simp [heapPushAll]⟩
  | cons x xs IH =>
    intro heap hH
    have hstep : heapPushAll heap (x :: xs) = heapPushAll (heappush heap x) xs := rfl
    obtain ⟨ih1, ih2⟩ := IH (heappush heap x) (heappush_isHeap heap x hH)
    rw [hstep]
    refine ⟨ih1, ih2.trans ?_⟩
    have h1 : ((heappush heap x) ++ xs).Perm ((x :: heap) ++ xs) :=
      (heappush_perm heap x).append_right xs
    exact h1.trans List.perm_middle.symm

/-!
### The `AudioNarrator` state machine (`audio_narrator.py`)

Backend initialisation, the TTS engines and thread spawning are external
collaborators; what is embedded is the queue, the flags, the statistics
counters, the callback invocations (recorded as an event trace) and the
`_current_playback` handle.  A `playbackStep` is one iteration of
`_playback_loop`; `playOk` abstracts whether the backend render raised.
-/

/-- `TTSBackend` enum. -/
inductive TTSBackend where
  | azure
  | pyttsx3
  | elevenlabs
  | none
  deriving DecidableEq, Repr

/-- `.value` of the backend enum members. -/
def TTSBackend.value : TTSBackend → String
  | .azure => "azure"
  | .pyttsx3 => "pyttsx3"
  | .elevenlabs => "elevenlabs"
  | .none => "none"

/-- An abstract playback thread handle (`threading.Thread`), with its
`is_alive()` observation. -/
structure PlayHandle where
  alive : Bool
  deriving DecidableEq, Repr

/-- The `_stats` dictionary. -/
structure NarratorStats where
  queued : Nat
  played : Nat
  interrupted : Nat
  errors : Nat
  deriving DecidableEq, Repr

/-- A callback invocation performed by the narrator (`on_start`, `on_end`,
`on_interrupt`), recorded in order. -/
inductive NarratorEvent where
  | started (alertId : String)
  | ended (alertId : String)
  | interrupt (alertId : String)
  deriving DecidableEq, Repr

/-- Mutable state of an `AudioNarrator` instance.  `onStartSet` etc. record
whether the corresponding callback attribute is not `None`. -/
structure NarratorState where
  backend : TTSBackend
  queue : List AudioQueueItem
  running : Bool
  stopEvent : Bool
  currentPlayback : Option PlayHandle
  onStartSet : Bool
  onEndSet : Bool
  onInterruptSet : Bool
  stats : NarratorStats
  events : List NarratorEvent
  deriving Repr

/-- `AudioNarrator.__init__` (lines 60-109): empty queue, not running,
`_current_playback = None`, zeroed stats, no callbacks registered. -/
def initNarrator (backend : TTSBackend) : NarratorState :=
  { backend := backend
    queue := []
    running := false
    stopEvent := false
    currentPlayback := Option.none
    onStartSet := false
    onEndSet := false
    onInterruptSet := false
    stats := ⟨0, 0, 0, 0⟩
    events := [] }

/-- Assigning the `on_start` / `on_end` / `on_interrupt` attributes. -/
def setCallbacks (st : NarratorState) (s e i : Bool) : NarratorState :=
  { st with onStartSet := s, onEndSet := e, onInterruptSet := i }

/-- `AudioNarrator.start`. -/
def narratorStart (st : NarratorState) : NarratorState :=
  if st.running then st
  else if st.backend = TTSBackend.none then st
  else { st with running := true, stopEvent := false }

/-- `AudioNarrator.stop`: clear the running flag, set the stop event and
drain the queue. -/
def narratorStop (st : NarratorState) : NarratorState :=
  if ¬ st.running then st
  else { st with running := false, stopEvent := true, queue := [] }

/-- `AudioNarrator.speak` (lines 475-516): skip when no backend or blank
text; otherwise wrap, enqueue, bump `queued`; then, when `interrupt` is
requested and something is currently playing, fire `on_interrupt`. -/
def speak (st : NarratorState) (now : ℚ) (text : String) (priority : Int)
    (alertId : String) (interrupt : Bool) : NarratorState :=
  if st.backend = TTSBackend.none then st
  else if text = "" ∨ text.trim = "" then st
  else
    let item : AudioQueueItem :=
      ⟨priority, now, text.trim, alertId, interrupt⟩
    let st1 := { st with
      queue := heappush st.queue item
      stats := { st.stats with queued := st.stats.queued + 1 } }
    if interrupt ∧ st1.currentPlayback.isSome then
      if st1.onInterruptSet then
        { st1 with events := st1.events ++ [NarratorEvent.interrupt alertId] }
      else st1
    else st1

/-- `AudioNarrator._play_item` (lines 348-380): `on_start`, render through
the backend (`playOk` abstracts success), bump `played` or `errors`,
`on_end`. -/
def playItem (st : NarratorState) (item : AudioQueueItem) (playOk : Bool) :
    NarratorState :=
  let st1 :=
    if st.onStartSet then
      { st with events := st.events ++ [NarratorEvent.started item.alertId] }
    else st
  let st2 :=
    if playOk then { st1 with stats := { st1.stats with played := st1.stats.played + 1 } }
    else { st1 with stats := { st1.stats with errors := st1.stats.errors + 1 } }
  if st2.onEndSet then
    { st2 with events := st2.events ++ [NarratorEvent.ended item.alertId] }
  else st2

/-- One iteration of `AudioNarrator._playback_loop` (lines 334-346). -/
def playbackStep (st : NarratorState) (playOk : Bool) : NarratorState :=
  if st.running ∧ ¬ st.stopEvent then
    match heappop st.queue with
    | Option.none => st
    | some (item, rest) => playItem { st with queue := rest } item playOk
  else st

/-- `AudioNarrator.clear_queue`. -/
def clear_queue (st : NarratorState) : NarratorState :=
  { st with queue := [] }

/-- `AudioNarrator.is_playing` (lines 544-550). -/
def is_playing (st : NarratorState) : Bool :=
  match st.currentPlayback with
  | Option.none => false
  | some h => h.alive

/-- Result of `AudioNarrator.get_backend_info`. -/
structure BackendInfo where
  backend : String
  available : Bool
  running : Bool
  queueSize : Nat
  isPlaying : Bool
  deriving DecidableEq, Repr

/-- `AudioNarrator.get_backend_info` (lines 577-589). -/
def get_backend_info (st : NarratorState) : BackendInfo :=
  { backend := st.backend.value
    available := st.backend ≠ TTSBackend.none
    running := st.running
    queueSize := st.queue.length
    isPlaying := is_playing st }

/-- States an `AudioNarrator` can reach through its public operations
(`speak_alert` only delegates to `speak`). -/
inductive NarratorReachable : NarratorState → Prop where
  | init : ∀ b, NarratorReachable (initNarrator b)
  | callbacks : ∀ st s e i, NarratorReachable st → NarratorReachable (setCallbacks st s e i)
  | start : ∀ st, NarratorReachable st → NarratorReachable (narratorStart st)
  | stop : ∀ st, NarratorReachable st → NarratorReachable (narratorStop st)
  | speakStep : ∀ st now text p id intr, NarratorReachable st →
      NarratorReachable (speak st now text p id intr)
  | play : ∀ st ok, NarratorReachable st → NarratorReachable (playbackStep st ok)
  | clear : ∀ st, NarratorReachable st → NarratorReachable (clear_queue st)

/-!
### `RainfallThresholdMonitor` (`proactive_alerts.py` lines 75-201)

Rainfall values and timestamps are rationals; buckets keep the source's
string representation.  `check_crossing` returns the optional crossing
record together with the updated monitor state; `now` stands for
`datetime.now()` (used only for the bucket history). -/

structure RainfallThresholdMonitor where
  lastRainfall : Option ℚ
  lastBucket : Option String
  bucketHistory : List (ℚ × String × ℚ)
  deriving DecidableEq, Repr

/-- `RainfallThresholdMonitor.__init__`. -/
def initMonitor : RainfallThresholdMonitor := ⟨Option.none, Option.none, []⟩

/-- `RainfallThresholdMonitor.get_bucket` (lines 92-106). -/
def get_bucket (rainfall : ℚ) : String :=
  if rainfall < 30 then "normal"
  else if rainfall < 80 then "warning"
  else "danger"

/-- The dictionaries returned by `check_crossing`: a `bucket_change` or an
`internal_escalation` record. -/
inductive Crossing where
  | bucketChange (fromBucket : Option String) (toBucket : String)
      (fromRainfall toRainfall : ℚ) (direction : String) (thresholdCrossed : Option ℚ)
  | internalEscalation (bucket : String) (fromRainfall toRainfall : ℚ)
      (thresholdCrossed : ℚ) (direction : String)
  deriving DecidableEq, Repr

/-- `RainfallThresholdMonitor.check_crossing` (lines 108-175). -/
def check_crossing (m : RainfallThresholdMonitor) (now rainfall : ℚ) :
    Option Crossing × RainfallThresholdMonitor :=
  match m.lastRainfall with
  | Option.none =>
    (Option.none,
      { m with lastRainfall := some rainfall, lastBucket := some (get_bucket rainfall) })
  | some last =>
    let currentBucket := get_bucket rainfall
    if some currentBucket ≠ m.lastBucket then
      let direction := if rainfall > last then "rising" else "falling"
      let crossed : Option ℚ :=
        if direction = "rising" then
          if currentBucket = "warning" then some 30
          else if currentBucket = "danger" then some 80
          else Option.none
        else
          if currentBucket = "warning" then some 80
          else if currentBucket = "normal" then some 30
          else Option.none
      (some (Crossing.bucketChange m.lastBucket currentBucket last rainfall direction
          crossed),
        { m with lastRainfall := some rainfall, lastBucket := some currentBucket,
                 bucketHistory := m.bucketHistory ++ [(now, currentBucket, rainfall)] })
    else
      if currentBucket = "warning" ∧ last < 50 ∧ 50 ≤ rainfall then
        (some (Crossing.internalEscalation "warning" last rainfall 50 "rising"),
          { m with lastRainfall := some rainfall })
      else
        (Option.none, { m with lastRainfall := some rainfall })

/-!
### `ProactiveAlertManager` (`proactive_alerts.py` lines 204-771)

External collaborators (the `AIAlertGenerator`'s LLM output and the
chatbot's RAG retrieval) enter as parameters (`genMessage`, `genAudio`,
`genDocs`, `docs`).  `now : ℚ` stands for the wall-clock second count read
by `datetime.now()` / `time.time()` during a call.

The manager's `self._lock` is a non-reentrant `threading.Lock`.
`update_conditions` acquires it for its whole body (line 317);
`_generate_ai_alert` (line 469) and `_generate_legacy_alert` (line 548)
acquire the same lock again.  A second acquisition by the holding thread
blocks forever, modelled by `LockResult.deadlock`. -/

inductive AlertType where
  | threshold_crossing
  | escalation
  | location_change
  | severe_weather
  | historical_context
  deriving DecidableEq, Repr

/-- `.value` of the `AlertType` enum members. -/
def AlertType.value : AlertType → String
  | .threshold_crossing => "threshold_crossing"
  | .escalation => "escalation"
  | .location_change => "location_change"
  | .severe_weather => "severe_weather"
  | .historical_context => "historical_context"

inductive AlertPriority where
  | low
  | medium
  | high
  | critical
  deriving DecidableEq, Repr

/-- `AlertSeverity` from `ai_alert_generator.py` (lines 43-48). -/
inductive AlertSeverity where
  | low
  | medium
  | high
  | critical
  deriving DecidableEq, Repr

/-- Python `int()` applied to a float/rational: truncation towards zero. -/
def pyInt (q : ℚ) : Int :=
  if 0 ≤ q then ⌊q⌋ else ⌈q⌉

/-- Decimal digits of a natural number, most significant first — the digit
string produced by Python `str()` on a non-negative int. -/
def decDigits (n : Nat) : List Char :=
  if n < 10 then [Nat.digitChar n]
  else decDigits (n / 10) ++ [Nat.digitChar (n % 10)]
termination_by n
decreasing_by omega

/-- Python `str()` of a non-negative int. -/
def natRepr (n : Nat) : String := ⟨decDigits n⟩

/-- Python `str()` of an int. -/
def intRepr (i : Int) : String :=
  if i < 0 then "-" ++ natRepr i.natAbs else natRepr i.toNat

/-- The alert id `f"{alert_type.value}_{int(time.time())}"` built at lines
458 and 537. -/
def mkAlertId (t : AlertType) (now : ℚ) : String :=
  t.value ++ "_" ++ intRepr (pyInt now)

/-- `ProactiveAlert` dataclass (lines 41-54). -/
structure ProactiveAlert where
  id : String
  message : String
  priority : AlertPriority
  alert_type : AlertType
  location : String
  rainfall : ℚ
  createdAt : ℚ
  spoken : Bool
  read : Bool
  audioText : Option String
  sourceDocuments : List String
  deriving DecidableEq, Repr

/-- Mutable state of a `ProactiveAlertManager` (lines 253-297).
`aiAvailable` stands for `self._alert_generator is not None and
self._alert_generator.is_available()`; `chatbotAvailable` for the chatbot
collaborator. -/
structure ManagerState where
  cooldownSeconds : ℚ
  minAlertInterval : ℚ
  useAiAlerts : Bool
  aiAvailable : Bool
  monitor : RainfallThresholdMonitor
  alerts : List ProactiveAlert
  alertHistory : List ProactiveAlert
  lastAlertTime : Option ℚ
  cooldowns : List (AlertType × ℚ)
  currentRainfall : ℚ
  currentLocation : String
  lastLocation : String
  deriving DecidableEq, Repr

/-- `ProactiveAlertManager.__init__` with the given configuration. -/
def initManager (cooldownSeconds minAlertInterval : ℚ) (useAi aiAvail : Bool) :
    ManagerState :=
  { cooldownSeconds := cooldownSeconds
    minAlertInterval := minAlertInterval
    useAiAlerts := useAi
    aiAvailable := aiAvail
    monitor := initMonitor
    alerts := []
    alertHistory := []
    lastAlertTime := Option.none
    cooldowns := []
    currentRainfall := 0
    currentLocation := ""
    lastLocation := "" }

/-- Assignment `self._cooldowns[alert_type] = now`. -/
def setCooldown (cds : List (AlertType × ℚ)) (t : AlertType) (v : ℚ) :
    List (AlertType × ℚ) :=
  (t, v) :: cds.filter (fun p => p.1 != t)

/-- The per-kind half of `_can_alert` (lines 363-367). -/
def kind_cooldown_ok (st : ManagerState) (now : ℚ) (t : AlertType) : Bool :=
  match List.lookup t st.cooldowns with
  | some ts => if now - ts < st.cooldownSeconds then false else true
  | Option.none => true

/-- `ProactiveAlertManager._can_alert` (lines 346-369). -/
def can_alert (st : ManagerState) (now : ℚ) (t : AlertType) : Bool :=
  match st.lastAlertTime with
  | some last =>
    if now - last < st.minAlertInterval then false else kind_cooldown_ok st now t
  | Option.none => kind_cooldown_ok st now t

/-- `ProactiveAlertManager._get_priority` (lines 629-647). -/
def get_priority (t : AlertType) (bucket : String) : AlertPriority :=
  if bucket = "danger" then AlertPriority.critical
  else if t = AlertType.threshold_crossing ∧ bucket = "warning" then AlertPriority.high
  else if t = AlertType.escalation then AlertPriority.medium
  else if t = AlertType.severe_weather then AlertPriority.critical
  else AlertPriority.low

/-- The `severity_map.get(bucket, MEDIUM)` lookup of `_generate_ai_alert`
(lines 418-423); the `"danger"` entry is built as
`CRITICAL if bucket == "danger" else HIGH`. -/
def severity_map_get (bucket : String) : AlertSeverity :=
  if bucket = "normal" then AlertSeverity.low
  else if bucket = "warning" then AlertSeverity.medium
  else if bucket = "danger" then
    (if bucket = "danger" then AlertSeverity.critical else AlertSeverity.high)
  else AlertSeverity.medium

/-- The severity computed by `_generate_ai_alert` (lines 417-431): the
bucket lookup adjusted by the alert type. -/
def ai_severity (t : AlertType) (bucket : String) : AlertSeverity :=
  if t = AlertType.severe_weather then AlertSeverity.critical
  else if t = AlertType.threshold_crossing ∧ bucket = "danger" then AlertSeverity.critical
  else if t = AlertType.escalation then AlertSeverity.medium
  else severity_map_get bucket

/-- The `priority_map` of `_generate_ai_alert` (lines 448-454). -/
def priority_of_severity : AlertSeverity → AlertPriority
  | AlertSeverity.low => AlertPriority.low
  | AlertSeverity.medium => AlertPriority.medium
  | AlertSeverity.high => AlertPriority.high
  | AlertSeverity.critical => AlertPriority.critical

/-- `ProactiveAlertManager._get_fallback_message` (lines 649-679) as a
function of the current location and bucket. -/
def get_fallback_message (location bucket : String) : String :=
  if location = "ION Orchard" then
    if bucket = "normal" then
      "Welcome to ION Orchard. You are at 18 meters elevation, safe from flooding."
    else if bucket = "warning" then
      "ION Orchard: Heavy rain detected. Street level may have water, but you are safe here."
    else if bucket = "danger" then
      "ION Orchard: Severe rain. Stay in the mall. Avoid basement levels."
    else "Stay alert at " ++ location ++ "."
  else if location = "Orchard Road" then
    if bucket = "normal" then
      "Welcome to Orchard Road. Watch for water pooling during rain."
    else if bucket = "warning" then
      "Orchard Road warning: Heavy rain may cause flash floods. Move to higher ground if needed."
    else if bucket = "danger" then
      "URGENT: Severe rain on Orchard Road! Seek shelter immediately. Avoid drains and canals."
    else "Stay alert at " ++ location ++ "."
  else if location = "Tanglin Carpark" then
    if bucket = "normal" then
      "Welcome to Tanglin Carpark. Warning: This basement flooded in 2010 and 2011."
    else if bucket = "warning" then
      "Tanglin Carpark warning: Heavy rain! Be ready to evacuate. Watch for rising water."
    else if bucket = "danger" then
      "EMERGENCY at Tanglin Carpark! Severe rain! Evacuate NOW! Abandon vehicle if necessary!"
    else "Stay alert at " ++ location ++ "."
  else
    if bucket = "normal" then "At " ++ location ++ ": Conditions are normal."
    else if bucket = "warning" then
      "Warning at " ++ location ++ ": Heavy rain detected. Monitor conditions."
    else if bucket = "danger" then
      "DANGER at " ++ location ++ ": Severe rainfall! Seek higher ground immediately."
    else "Stay alert at " ++ location ++ "."

/-- Python `str.rfind` on the character list: index of the last occurrence,
`-1` when absent. -/
def rfindAux : List Char → Char → Int
  | [], _ => -1
  | a :: as, c =>
    let r := rfindAux as c
    if r ≥ 0 then r + 1 else if a = c then 0 else -1

/-- Python `s.rfind(c)`. -/
def pyRfind (s : String) (c : Char) : Int := rfindAux s.data c

/-- `ProactiveAlertManager._generate_audio_text` (lines 597-627).  The float
threshold `max_len * 0.7` evaluates to exactly `84.0` in IEEE-754 double
precision. -/
def generate_audio_text (message : String) (priority : AlertPriority) : String :=
  let pfx :=
    match priority with
    | AlertPriority.critical => "Emergency alert! "
    | AlertPriority.high => "Warning! "
    | AlertPriority.medium => "Caution: "
    | AlertPriority.low => ""
  let maxLen : Nat := 120
  let message2 :=
    if maxLen < message.length then
      let truncated := message.take maxLen
      let lastPeriod := pyRfind truncated '.'
      if lastPeriod > 84 then truncated.take (lastPeriod.toNat + 1) else truncated
    else message
  pfx ++ message2

/-- Outcome of running code that may re-acquire the manager's non-reentrant
lock while it is already held by the same call. -/
inductive LockResult (α : Type) where
  | ok (val : α)
  | deadlock
  deriving DecidableEq, Repr

/-- Body of `ProactiveAlertManager._generate_legacy_alert` (lines 491-568)
past the inner `with self._lock`: build the alert from the fallback message
table, append it to pending and history, update both cooldown timers.
`docs` is whatever the external retriever returned (line 518-524);
`_crossing` only feeds the prompt string, which the disabled
`_generate_message_with_context` ignores in favour of the fallback table. -/
def emitLegacy (st : ManagerState) (now : ℚ) (t : AlertType)
    (_crossing : Option Crossing) (docs : List String) :
    ProactiveAlert × ManagerState :=
  let bucket := get_bucket st.currentRainfall
  let message := get_fallback_message st.currentLocation bucket
  let priority := get_priority t bucket
  let audioText := generate_audio_text message priority
  let alert : ProactiveAlert :=
    { id := mkAlertId t now
      message := message
      priority := priority
      alert_type := t
      location := st.currentLocation
      rainfall := st.currentRainfall
      createdAt := now
      spoken := false
      read := false
      audioText := some audioText
      sourceDocuments := docs }
  (alert,
    { st with
      alerts := st.alerts ++ [alert]
      alertHistory := st.alertHistory ++ [alert]
      lastAlertTime := some now
      cooldowns := setCooldown st.cooldowns t now })

/-- Body of `ProactiveAlertManager._generate_ai_alert` (lines 392-489) past
the inner `with self._lock`: severity derived locally from bucket and kind,
text fields taken from the external generator's `GeneratedAlert`
(`genMessage`, `genAudio`, `genDocs`); the generator's own severity is not
read back. -/
def emitAI (st : ManagerState) (now : ℚ) (t : AlertType)
    (_crossing : Option Crossing) (genMessage genAudio : String)
    (genDocs : List String) : ProactiveAlert × ManagerState :=
  let bucket := get_bucket st.currentRainfall
  let severity := ai_severity t bucket
  let priority := priority_of_severity severity
  let alert : ProactiveAlert :=
    { id := mkAlertId t now
      message := genMessage
      priority := priority
      alert_type := t
      location := st.currentLocation
      rainfall := st.currentRainfall
      createdAt := now
      spoken := false
      read := false
      audioText := some genAudio
      sourceDocuments := genDocs }
  (alert,
    { st with
      alerts := st.alerts ++ [alert]
      alertHistory := st.alertHistory ++ [alert]
      lastAlertTime := some now
      cooldowns := setCooldown st.cooldowns t now })

/-- `ProactiveAlertManager._generate_alert` (lines 371-390) as executed with
`lockHeld` recording whether the caller already holds `self._lock`.  Both
generation paths re-acquire the non-reentrant lock (lines 469 and 548), so
they deadlock whenever it is already held. -/
def generate_alert (st : ManagerState) (now : ℚ) (t : AlertType)
    (crossing : Option Crossing) (lockHeld : Bool) (genMessage genAudio : String)
    (genDocs docs : List String) : LockResult (ProactiveAlert × ManagerState) :=
  if st.aiAvailable then
    if lockHeld then LockResult.deadlock
    else LockResult.ok (emitAI st now t crossing genMessage genAudio genDocs)
  else
    if lockHeld then LockResult.deadlock
    else LockResult.ok (emitLegacy st now t crossing docs)

/-- The kind selected for a crossing by `update_conditions` (lines 332-339). -/
def crossing_kind : Crossing → AlertType
  | Crossing.bucketChange _ toBucket _ _ _ _ =>
    if toBucket = "danger" then AlertType.severe_weather else AlertType.threshold_crossing
  | Crossing.internalEscalation _ _ _ _ _ => AlertType.escalation

/-- The crossing-check half of `update_conditions` (lines 330-344), reached
when the location branch does not return. -/
def update_crossing_phase (st : ManagerState) (now rainfall : ℚ)
    (genMessage genAudio : String) (genDocs docs : List String) :
    LockResult (Option ProactiveAlert × ManagerState) :=
  let res := check_crossing st.monitor now rainfall
  let st2 := { st with monitor := res.2 }
  match res.1 with
  | some cr =>
    let t := crossing_kind cr
    if can_alert st2 now t then
      match generate_alert st2 now t (some cr) true genMessage genAudio genDocs docs with
      | LockResult.deadlock => LockResult.deadlock
      | LockResult.ok (a, st3) => LockResult.ok (some a, st3)
    else LockResult.ok (Option.none, st2)
  | Option.none => LockResult.ok (Option.none, st2)

/-- `ProactiveAlertManager.update_conditions` (lines 307-344).  The body
runs under `self._lock`, so any call into `_generate_alert` happens with
the lock held. -/
def update_conditions (st : ManagerState) (now rainfall : ℚ) (location : String)
    (genMessage genAudio : String) (genDocs docs : List String) :
    LockResult (Option ProactiveAlert × ManagerState) :=
  let st1 := { st with currentRainfall := rainfall }
  if location ≠ st1.currentLocation then
    let st2 := { st1 with
      lastLocation := st1.currentLocation
      currentLocation := location
      monitor := initMonitor }
    if can_alert st2 now AlertType.location_change then
      match generate_alert st2 now AlertType.location_change Option.none true
          genMessage genAudio genDocs docs with
      | LockResult.deadlock => LockResult.deadlock
      | LockResult.ok (a, st3) => LockResult.ok (some a, st3)
    else update_crossing_phase st2 now rainfall genMessage genAudio genDocs docs
  else update_crossing_phase st1 now rainfall genMessage genAudio genDocs docs

/-- The gate-plus-emission step as it behaves when the manager's lock is not
already held (the semantics of lines 341-342 feeding
`_generate_legacy_alert`); `update_conditions` itself never reaches the
emission without deadlocking. -/
def tryEmit (st : ManagerState) (now : ℚ) (t : AlertType)
    (crossing : Option Crossing) (docs : List String) :
    Option ProactiveAlert × ManagerState :=
  if can_alert st now t then
    let res := emitLegacy st now t crossing docs
    (some res.1, res.2)
  else (Option.none, st)

/-- `ProactiveAlertManager.get_alert_history` (lines 723-733): Python's
`self._alert_history[-limit:]`, where `-0` slices the whole list. -/
def get_alert_history (st : ManagerState) (limit : Nat) : List ProactiveAlert :=
  if limit = 0 then st.alertHistory
  else st.alertHistory.drop (st.alertHistory.length - limit)

/-! ### Cooldown-dictionary lemmas -/

theorem lookup_setCooldown_self (cds : List (AlertType × ℚ)) (t : AlertType) (v : ℚ) :
    List.lookup t (setCooldown cds t v) = some v := by
  simp [setCooldown, List.lookup]

theorem lookup_filter_ne (cds : List (AlertType × ℚ)) (t t' : AlertType) (h : t' ≠ t) :
    List.lookup t' (cds.filter (fun p => p.1 != t)) = List.lookup t' cds := by
  induction cds with
  | nil => rfl
  | cons p rest IH =>
    obtain ⟨k, b⟩ := p
    by_cases hk : k = t
    · subst hk
      have hne : (t' == k) = false := by
        simp [bne, h]
      simp only [List.filter_cons]
      rw [show ((k, b).1 != k) = false by simp]
      simp only [cond_false, List.lookup]
      rw [show (t' == k) = false by simp [h]]
      exact IH
    · simp only [List.filter_cons]
      rw [show ((k, b).1 != t) = true by simp [hk]]
      simp only [cond_true, List.lookup]
      cases hkk : (t' == k) with
      | true => rfl
      | false => exact IH

theorem lookup_setCooldown_ne (cds : List (AlertType × ℚ)) (t t' : AlertType) (v : ℚ)
    (h : t' ≠ t) : List.lookup t' (setCooldown cds t v) = List.lookup t' cds := by
  simp only [setCooldown, List.lookup]
  rw [show (t' == t) = false by simp [h]]
  exact lookup_filter_ne cds t t' h

/-! ### Injectivity of the time-derived alert ids -/

/-- Numeric value of a decimal digit character. -/
def charVal (c : Char) : Nat := c.toNat - '0'.toNat

/-- Value of a most-significant-first digit string. -/
def valOfDigits (l : List Char) : Nat :=
  l.foldl (fun acc c => 10 * acc + charVal c) 0

theorem valOfDigits_append (l : List Char) (c : Char) (acc : Nat) :
    (l ++ [c]).foldl (fun a d => 10 * a + charVal d) acc =
      10 * (l.foldl (fun a d => 10 * a + charVal d) acc) + charVal c := by
  rw [List.foldl_append]
  rfl

theorem charVal_digitChar : ∀ m, m < 10 → charVal (Nat.digitChar m) = m := by decide

theorem valOfDigits_decDigits : ∀ n, valOfDigits (decDigits n) = n := by
  intro n
  induction n using Nat.strong_induction_on with
  | _ n IH =>
    rw [decDigits]
    split
    · next h =>
      simp only [valOfDigits, List.foldl_cons, List.foldl_nil]
      rw [charVal_digitChar n h]
      omega
    · next h =>
      rw [valOfDigits, valOfDigits_append, ← valOfDigits, IH (n / 10) (by omega),
        charVal_digitChar (n % 10) (by omega)]
      omega

theorem string_data_inj {s1 s2 : String} (h : s1.data = s2.data) : s1 = s2 := by
  cases s1
  cases s2
  exact congrArg String.mk h

theorem natRepr_inj (a b : Nat) (h : natRepr a = natRepr b) : a = b := by
  have hd : decDigits a = decDigits b := by
    have := congrArg String.data h
    simpa [natRepr] using this
  have := congrArg valOfDigits hd
  rwa [valOfDigits_decDigits, valOfDigits_decDigits] at this

/-- The first character of the `AlertType` value string. -/
def AlertType.firstChar : AlertType → Char
  | .threshold_crossing => 't'
  | .escalation => 'e'
  | .location_change => 'l'
  | .severe_weather => 's'
  | .historical_context => 'h'

theorem mkAlertId_head (t : AlertType) (tm : ℚ) :
    (mkAlertId t tm).data.head? = some t.firstChar := by
  cases t <;>
    simp only [mkAlertId, AlertType.value, AlertType.firstChar, String.data_append] <;>
    rfl

theorem mkAlertId_ne_of_kind (t1 t2 : AlertType) (tm1 tm2 : ℚ) (h : t1 ≠ t2) :
    mkAlertId t1 tm1 ≠ mkAlertId t2 tm2 := by
  intro heq
  have h1 := mkAlertId_head t1 tm1
  rw [heq, mkAlertId_head t2 tm2] at h1
  have : t1.firstChar ≠ t2.firstChar := by
    revert h
    cases t1 <;> cases t2 <;> decide
  exact this (Option.some.inj h1).symm

theorem mkAlertId_ne_of_time (t : AlertType) (tm1 tm2 : ℚ)
    (h1 : 0 ≤ pyInt tm1) (h2 : 0 ≤ pyInt tm2) (h : pyInt tm1 ≠ pyInt tm2) :
    mkAlertId t tm1 ≠ mkAlertId t tm2 := by
  intro heq
  have hdata := congrArg String.data heq
  simp only [mkAlertId, String.data_append] at hdata
  have hrepr : (intRepr (pyInt tm1)).data = (intRepr (pyInt tm2)).data :=
    List.append_cancel_left hdata
  have hnn1 : intRepr (pyInt tm1) = natRepr (pyInt tm1).toNat := by
    rw [intRepr, if_neg (by omega)]
  have hnn2 : intRepr (pyInt tm2) = natRepr (pyInt tm2).toNat := by
    rw [intRepr, if_neg (by omega)]
  rw [hnn1, hnn2] at hrepr
  have := natRepr_inj _ _ (string_data_inj hrepr)
  omega

theorem pyInt_lt_of_add_one_le (a b : ℚ) (ha : 0 ≤ a) (hab : a + 1 ≤ b) :
    pyInt a < pyInt b := by
  have hb : 0 ≤ b := by linarith
  rw [pyInt, if_pos ha, pyInt, if_pos hb]
  have h1 : (⌊a⌋ : Int) + 1 = ⌊a + 1⌋ := (Int.floor_add_one a).symm
  have h2 : ⌊a + 1⌋ ≤ ⌊b⌋ := Int.floor_le_floor hab
  omega

theorem pyInt_nonneg (a : ℚ) (ha : 0 ≤ a) : 0 ≤ pyInt a := by
  rw [pyInt, if_pos ha]
  exact Int.floor_nonneg.mpr ha

/-! ### Monitor state shape -/

/-- Every monitor state whose baseline is established: the recorded bucket
always classifies the recorded value (see `check_crossing_keeps_shape`). -/
def baselineMonitor (prev : ℚ) (hist : List (ℚ × String × ℚ)) :
    RainfallThresholdMonitor :=
  ⟨some prev, some (get_bucket prev), hist⟩

/-- After any observation the monitor records the observed value together
with its bucket: every reachable post-baseline state has the
`baselineMonitor` shape. -/
theorem check_crossing_keeps_shape (m : RainfallThresholdMonitor) (now v : ℚ) :
    (check_crossing m now v).2.lastRainfall = some v ∧
      ((check_crossing m now v).2.lastBucket = some (get_bucket v) ∨
        (check_crossing m now v).2.lastBucket = m.lastBucket ∧
          m.lastBucket = some (get_bucket v)) := by
  obtain ⟨lr, lb, bh⟩ := m
  cases lr with
  | none => exact ⟨rfl, Or.inl rfl⟩
  | some last =>
    simp only [check_crossing]
    by_cases hb : some (get_bucket v) ≠ lb
    · rw [if_pos hb]
      exact ⟨rfl, Or.inl rfl⟩
    · rw [if_neg hb]
      push_neg at hb
      split
      · exact ⟨rfl, Or.inr ⟨rfl, hb.symm⟩⟩
      · exact ⟨rfl, Or.inr ⟨rfl, hb.symm⟩⟩

/-- C3: after the baseline, a `bucket_change` record is produced iff the
bucket of the previous and current values differ; its direction agrees with
the sign of `curr - prev`, and the crossed threshold follows the
direction-dependent table. -/
theorem C3_bucket_change_iff_table (prev curr now : ℚ)
    (hist : List (ℚ × String × ℚ)) :
    ((∃ fb tb fr tr dir cr,
        (check_crossing (baselineMonitor prev hist) now curr).1 =
          some (Crossing.bucketChange fb tb fr tr dir cr)) ↔
      get_bucket prev ≠ get_bucket curr) ∧
    (∀ fb tb fr tr dir cr,
      (check_crossing (baselineMonitor prev hist) now curr).1 =
        some (Crossing.bucketChange fb tb fr tr dir cr) →
      fb = some (get_bucket prev) ∧ tb = get_bucket curr ∧
        fr = prev ∧ tr = curr ∧
        (dir = "rising" ↔ 0 < curr - prev) ∧
        (dir = "falling" ↔ curr - prev < 0) ∧
        (dir = "rising" → tb = "warning" → cr = some 30) ∧
        (dir = "rising" → tb = "danger" → cr = some 80) ∧
        (dir = "falling" → tb = "warning" → cr = some 80) ∧
        (dir = "falling" → tb = "normal" → cr = some 30)) := by
  by_cases hb : get_bucket curr = get_bucket prev
  · constructor
    · constructor
      · rintro ⟨fb, tb, fr, tr, dir, cr, hcr⟩
        simp only [check_crossing, baselineMonitor, hb] at hcr
        rw [if_neg (by simp)] at hcr
        split at hcr <;> simp at hcr
      · intro hne
        exact absurd hb.symm hne
    · intro fb tb fr tr dir cr hcr
      simp only [check_crossing, baselineMonitor, hb] at hcr
      rw [if_neg (by simp)] at hcr
      split at hcr <;> simp at hcr
  · have hvne : curr ≠ prev := fun h => hb (by rw [h])
    have hres : (check_crossing (baselineMonitor prev hist) now curr).1 =
        some (Crossing.bucketChange (some (get_bucket prev)) (get_bucket curr) prev curr
          (if curr > prev then "rising" else "falling")
          (if (if curr > prev then "rising" else "falling") = "rising" then
            if get_bucket curr = "warning" then some 30
            else if get_bucket curr = "danger" then some 80
            else Option.none
          else
            if get_bucket curr = "warning" then some 80
            else if get_bucket curr = "normal" then some 30
            else Option.none)) := by
      simp [check_crossing, baselineMonitor, hb]
    refine ⟨⟨fun _ => fun h => hb h.symm, fun _ => ⟨_, _, _, _, _, _, hres⟩⟩, ?_⟩
    intro fb tb fr tr dir cr hcr
    rw [hres] at hcr
    simp only [Option.some.injEq, Crossing.bucketChange.injEq] at hcr
    obtain ⟨hfb, htb, hfr, htr, hdir, hcr'⟩ := hcr
    subst hfb htb hfr htr hdir hcr'
    refine ⟨rfl, rfl, rfl, rfl, ?_, ?_, ?_, ?_, ?_, ?_⟩
    · by_cases hlt : curr > prev
      · rw [if_pos hlt]
        constructor
        · intro _
          linarith
        · intro _
          rfl
      · rw [if_neg hlt]
        constructor
        · intro h
          simp at h
        · intro h
          exfalso
          exact hlt (by linarith)
    · by_cases hlt : curr > prev
      · rw [if_pos hlt]
        constructor
        · intro h
          simp at h
        · intro h
          exfalso
          linarith
      · rw [if_neg hlt]
        constructor
        · intro _
          have := lt_of_le_of_ne (le_of_not_lt hlt) hvne
          linarith
        · intro _
          rfl
    · intro hdir2 htb2
      rw [if_pos hdir2, if_pos htb2]
    · intro hdir2 htb2
      by_cases hw : get_bucket curr = "warning"
      · rw [htb2] at hw
        simp at hw
      · rw [if_pos hdir2, if_neg hw, if_pos htb2]
    · intro hdir2 htb2
      by_cases hlt : curr > prev
      · simp [hlt] at hdir2
      · rw [if_neg (by simp [hlt]), if_pos htb2]
    · intro hdir2 htb2
      by_cases hlt : curr > prev
      · simp [hlt] at hdir2
      · have hw : get_bucket curr ≠ "warning" := by
          rw [htb2]
          simp
        rw [if_neg (by simp [hlt]), if_neg hw, if_pos htb2]

/-- C4: after the baseline, an `internal_escalation` record is produced iff
the bucket stays `warning` and the value rises through 50; the falling edge
through 50 inside `warning` produces no event at all. -/
theorem C4_internal_escalation_iff (prev curr now : ℚ)
    (hist : List (ℚ × String × ℚ)) :
    ((∃ b fr tr th dir,
        (check_crossing (baselineMonitor prev hist) now curr).1 =
          some (Crossing.internalEscalation b fr tr th dir)) ↔
      (get_bucket prev = "warning" ∧ get_bucket curr = "warning" ∧
        prev < 50 ∧ 50 ≤ curr)) ∧
    (get_bucket prev = "warning" → get_bucket curr = "warning" →
      50 ≤ prev → curr < 50 →
      (check_crossing (baselineMonitor prev hist) now curr).1 = Option.none) := by
  by_cases hb : get_bucket curr = get_bucket prev
  · have hres : (check_crossing (baselineMonitor prev hist) now curr).1 =
        (if get_bucket curr = "warning" ∧ prev < 50 ∧ 50 ≤ curr then
          some (Crossing.internalEscalation "warning" prev curr 50 "rising")
        else Option.none) := by
      simp only [check_crossing, baselineMonitor]
      rw [if_neg (by simp [hb])]
      split
      · rfl
      · rfl
    constructor
    · rw [hres]
      by_cases hesc : get_bucket curr = "warning" ∧ prev < 50 ∧ 50 ≤ curr
      · rw [if_pos hesc]
        constructor
        · intro _
          exact ⟨by rw [← hb]; exact hesc.1, hesc.1, hesc.2.1, hesc.2.2⟩
        · intro _
          exact ⟨"warning", prev, curr, 50, "rising", rfl⟩
      · rw [if_neg hesc]
        constructor
        · rintro ⟨b, fr, tr, th, dir, hcr⟩
          simp at hcr
        · rintro ⟨hpw, hcw, h50p, h50c⟩
          exact absurd ⟨hcw, h50p, h50c⟩ hesc
    · intro hpw hcw h50p h50c
      rw [hres, if_neg (by rintro ⟨_, h1, _⟩; linarith)]
  · have hres2 : (check_crossing (baselineMonitor prev hist) now curr).1 =
        some (Crossing.bucketChange (some (get_bucket prev)) (get_bucket curr) prev curr
          (if curr > prev then "rising" else "falling")
          (if (if curr > prev then "rising" else "falling") = "rising" then
            if get_bucket curr = "warning" then some 30
            else if get_bucket curr = "danger" then some 80
            else Option.none
          else
            if get_bucket curr = "warning" then some 80
            else if get_bucket curr = "normal" then some 30
            else Option.none)) := by
      simp [check_crossing, baselineMonitor, hb]
    constructor
    · constructor
      · rintro ⟨b, fr2, tr2, th2, dir2, hcr⟩
        rw [hres2] at hcr
        simp at hcr
      · rintro ⟨hpw, hcw, _, _⟩
        rw [hpw] at hb
        exact absurd hcw hb
    · intro hpw hcw h50p h50c
      rw [hpw] at hb
      exact absurd hcw hb

/-- C3 witness: the observation 10 → 35 changes bucket, so a bucket-change
record is produced. -/
theorem C3_bucket_change_witness :
    get_bucket 10 ≠ get_bucket 35 ∧
    (∃ fb tb fr tr dir cr,
      (check_crossing (baselineMonitor 10 []) 0 35).1 =
        some (Crossing.bucketChange fb tb fr tr dir cr)) :=
  ⟨by decide, (C3_bucket_change_iff_table 10 35 0 []).1.mpr (by decide)⟩

/-- C4 witness: the observation 35 → 55 stays in warning and rises through
50, so an internal-escalation record is produced. -/
theorem C4_internal_escalation_witness :
    ∃ b fr tr th dir,
      (check_crossing (baselineMonitor 35 []) 0 55).1 =
        some (Crossing.internalEscalation b fr tr th dir) :=
  (C4_internal_escalation_iff 35 55 0 []).1.mpr (by decide)

/-- C6 counterexample: a LocationChange alert generated while the current
rainfall is in the danger bucket receives Critical priority, not the
claimed default Low. -/
theorem C6_counterexample :
    (emitLegacy { initManager 60 30 true false with
        currentRainfall := 100, currentLocation := "Zone A" } 5
      AlertType.location_change Option.none []).1.priority =
      AlertPriority.critical ∧
    AlertPriority.critical ≠ AlertPriority.low := by
  constructor
  · rfl
  · decide

/-- C6 amended: in the fallback path any alert in the danger bucket is
Critical (whatever its kind); otherwise ThresholdCrossing-in-warning is
High, Escalation Medium, SevereWeather Critical and everything else Low —
including a ThresholdCrossing outside the warning and danger buckets, such
as a falling crossing into Normal.  In the AI path the priority follows
the bucket (normal → Low, warning → Medium, danger → Critical, unknown →
Medium) overridden by kind (SevereWeather → Critical,
ThresholdCrossing-in-danger → Critical, Escalation → Medium); in
particular a ThresholdCrossing into warning gets Medium there, not High,
and a ThresholdCrossing into normal gets Low. -/
theorem C6_priority_derivation (t : AlertType) (bucket : String) :
    (bucket = "danger" → get_priority t bucket = AlertPriority.critical) ∧
    (t = AlertType.severe_weather → get_priority t bucket = AlertPriority.critical) ∧
    (t = AlertType.threshold_crossing → bucket = "warning" →
      get_priority t bucket = AlertPriority.high) ∧
    (t = AlertType.escalation → bucket ≠ "danger" →
      get_priority t bucket = AlertPriority.medium) ∧
    ((t = AlertType.location_change ∨ t = AlertType.historical_context) →
      bucket ≠ "danger" → get_priority t bucket = AlertPriority.low) ∧
    (t = AlertType.severe_weather →
      priority_of_severity (ai_severity t bucket) = AlertPriority.critical) ∧
    (t = AlertType.threshold_crossing → bucket = "danger" →
      priority_of_severity (ai_severity t bucket) = AlertPriority.critical) ∧
    (t = AlertType.escalation →
      priority_of_severity (ai_severity t bucket) = AlertPriority.medium) ∧
    (t = AlertType.threshold_crossing → bucket = "warning" →
      priority_of_severity (ai_severity t bucket) = AlertPriority.medium) ∧
    ((t = AlertType.location_change ∨ t = AlertType.historical_context) →
      priority_of_severity (ai_severity t bucket) =
        (if bucket = "normal" then AlertPriority.low
         else if bucket = "warning" then AlertPriority.medium
         else if bucket = "danger" then AlertPriority.critical
         else AlertPriority.medium)) ∧
    (t = AlertType.threshold_crossing → bucket ≠ "danger" → bucket ≠ "warning" →
      get_priority t bucket = AlertPriority.low) ∧
    (t = AlertType.threshold_crossing → bucket ≠ "danger" → bucket ≠ "warning" →
      priority_of_severity (ai_severity t bucket) =
        (if bucket = "normal" then AlertPriority.low else AlertPriority.medium)) := by
  by_cases hd : bucket = "danger" <;> by_cases hw : bucket = "warning" <;>
    by_cases hn : bucket = "normal" <;> cases t <;>
    simp_all [get_priority, ai_severity, severity_map_get, priority_of_severity]

/-- C6 witness: instantiating the amended derivation at a LocationChange
alert in the danger bucket. -/
theorem C6_priority_derivation_witness :
    get_priority AlertType.location_change "danger" = AlertPriority.critical :=
  (C6_priority_derivation AlertType.location_change "danger").1 rfl

/-- C1: the very first call of `update_conditions` whose location-change
event passes the cooldown gate does not return; both generation paths
re-acquire the manager's non-reentrant lock while `update_conditions`
holds it, so the call deadlocks instead of returning an alert. -/
theorem C1_update_conditions_deadlocks :
    update_conditions (initManager 60 30 true true) 0 0 "Orchard Road" "" "" [] [] =
      LockResult.deadlock ∧
    update_conditions (initManager 60 30 true false) 0 0 "Orchard Road" "" "" [] [] =
      LockResult.deadlock := by
  constructor
  · rfl
  · rfl

/-- C10: on the first call after construction every non-empty location
differs from the initial location (the empty string) and the
location-change gate passes (no timestamps exist yet), but instead of
returning a LocationChange alert the call deadlocks on the re-acquired
lock, whatever the rainfall value. -/
theorem C10_first_call_location_branch (loc : String) (hloc : loc ≠ "")
    (now rainfall : ℚ) (ai : Bool) :
    loc ≠ (initManager 60 30 true ai).currentLocation ∧
    can_alert (initManager 60 30 true ai) now AlertType.location_change = true ∧
    update_conditions (initManager 60 30 true ai) now rainfall loc "" "" [] [] =
      LockResult.deadlock := by
  refine ⟨hloc, rfl, ?_⟩
  cases ai <;>
  · rw [update_conditions]
    simp only [initManager]
    rw [if_pos hloc]
    rfl

/-- C10 witness: the concrete first call with location `"Orchard Road"`. -/
theorem C10_first_call_location_branch_witness :
    "Orchard Road" ≠ (initManager 60 30 true true).currentLocation ∧
    can_alert (initManager 60 30 true true) 0 AlertType.location_change = true ∧
    update_conditions (initManager 60 30 true true) 0 0 "Orchard Road" "" "" [] [] =
      LockResult.deadlock :=
  C10_first_call_location_branch "Orchard Road" (by decide) 0 0 true

/-! ### The cooldown gate -/

theorem can_alert_kind_ok (st : ManagerState) (now : ℚ) (t : AlertType)
    (h : can_alert st now t = true) : kind_cooldown_ok st now t = true := by
  cases hl : st.lastAlertTime with
  | none => simpa [can_alert, hl] using h
  | some last =>
    simp only [can_alert, hl] at h
    by_cases hlt : now - last < st.minAlertInterval
    · rw [if_pos hlt] at h
      exact absurd h (by simp)
    · rwa [if_neg hlt] at h

theorem kind_ok_spec (st : ManagerState) (now : ℚ) (t : AlertType)
    (h : kind_cooldown_ok st now t = true) :
    ∀ tl, List.lookup t st.cooldowns = some tl →
      ¬ (now - tl < st.cooldownSeconds) := by
  intro tl htl
  simp only [kind_cooldown_ok, htl] at h
  by_cases hlt : now - tl < st.cooldownSeconds
  · rw [if_pos hlt] at h
    exact absurd h (by simp)
  · exact hlt

theorem can_alert_iff (st : ManagerState) (now : ℚ) (t : AlertType) :
    can_alert st now t = true ↔
      ((∀ last, st.lastAlertTime = some last → ¬ (now - last < st.minAlertInterval)) ∧
       (∀ ts, List.lookup t st.cooldowns = some ts →
         ¬ (now - ts < st.cooldownSeconds))) := by
  constructor
  · intro h
    refine ⟨?_, kind_ok_spec st now t (can_alert_kind_ok st now t h)⟩
    intro last hlast hlt
    simp only [can_alert, hlast, if_pos hlt] at h
    exact absurd h (by simp)
  · rintro ⟨hg, hk⟩
    have hkok : kind_cooldown_ok st now t = true := by
      cases hlk : List.lookup t st.cooldowns with
      | none => simp [kind_cooldown_ok, hlk]
      | some ts =>
        simp only [kind_cooldown_ok, hlk]
        rw [if_neg (hk ts hlk)]
    cases hl : st.lastAlertTime with
    | none => simpa [can_alert, hl] using hkok
    | some last =>
      simp only [can_alert, hl]
      rw [if_neg (hg last hl)]
      exact hkok

/-- C5: the gate rejects exactly when the global interval or the per-kind
cooldown is still running; timers move only on successful emission; with
`minAlertInterval = 30` two per-kind-qualifying events 10 s apart produce
exactly one alert while 31 s apart they produce two.  The last conjunct
records the accompanying code defect: driven through `update_conditions`,
the first qualifying event deadlocks instead of emitting (see C1). -/
theorem C5_cooldown_gate (c now1 : ℚ) (t1 t2 : AlertType) (h12 : t1 ≠ t2) :
    (∀ st (now : ℚ) t, can_alert st now t = true ↔
      ((∀ last, st.lastAlertTime = some last → ¬ (now - last < st.minAlertInterval)) ∧
       (∀ ts, List.lookup t st.cooldowns = some ts →
         ¬ (now - ts < st.cooldownSeconds)))) ∧
    (∀ st (now : ℚ) t cr docs, can_alert st now t = false →
      tryEmit st now t cr docs = (Option.none, st)) ∧
    (∀ st (now : ℚ) t cr docs, can_alert st now t = true →
      ((tryEmit st now t cr docs).2.lastAlertTime = some now ∧
        List.lookup t (tryEmit st now t cr docs).2.cooldowns = some now)) ∧
    ((tryEmit (initManager c 30 false false) now1 t1 Option.none []).1.isSome = true ∧
     (tryEmit (tryEmit (initManager c 30 false false) now1 t1 Option.none []).2
        (now1 + 10) t2 Option.none []).1 = Option.none ∧
     (tryEmit (tryEmit (initManager c 30 false false) now1 t1 Option.none []).2
        (now1 + 31) t2 Option.none []).1.isSome = true) ∧
    update_conditions (initManager 60 30 true false) 0 0 "Zone A" "" "" [] [] =
      LockResult.deadlock := by
  refine ⟨can_alert_iff, ?_, ?_, ⟨?_, ?_, ?_⟩, rfl⟩
  · intro st now t cr docs h
    rw [tryEmit, if_neg (by rw [h]; simp)]
  · intro st now t cr docs h
    rw [tryEmit, if_pos h]
    exact ⟨rfl, lookup_setCooldown_self _ _ _⟩
  · rfl
  · have hfirst : tryEmit (initManager c 30 false false) now1 t1 Option.none [] =
        (some (emitLegacy (initManager c 30 false false) now1 t1 Option.none []).1,
          (emitLegacy (initManager c 30 false false) now1 t1 Option.none []).2) := by
      rw [tryEmit, if_pos (show can_alert (initManager c 30 false false) now1 t1 =
        true from rfl)]
    rw [hfirst]
    have hlast : (emitLegacy (initManager c 30 false false) now1 t1
        Option.none []).2.lastAlertTime = some now1 := rfl
    have hmi : (emitLegacy (initManager c 30 false false) now1 t1
        Option.none []).2.minAlertInterval = (30 : ℚ) := rfl
    have hreject : can_alert (emitLegacy (initManager c 30 false false) now1 t1
        Option.none []).2 (now1 + 10) t2 = false := by
      simp only [can_alert, hlast, hmi]
      rw [if_pos (by linarith)]
    rw [tryEmit, if_neg (by rw [hreject]; simp)]
  · have hfirst : tryEmit (initManager c 30 false false) now1 t1 Option.none [] =
        (some (emitLegacy (initManager c 30 false false) now1 t1 Option.none []).1,
          (emitLegacy (initManager c 30 false false) now1 t1 Option.none []).2) := by
      rw [tryEmit, if_pos (show can_alert (initManager c 30 false false) now1 t1 =
        true from rfl)]
    rw [hfirst]
    have hlast : (emitLegacy (initManager c 30 false false) now1 t1
        Option.none []).2.lastAlertTime = some now1 := rfl
    have hmi : (emitLegacy (initManager c 30 false false) now1 t1
        Option.none []).2.minAlertInterval = (30 : ℚ) := rfl
    have hcds : (emitLegacy (initManager c 30 false false) now1 t1
        Option.none []).2.cooldowns = [(t1, now1)] := rfl
    have haccept : can_alert (emitLegacy (initManager c 30 false false) now1 t1
        Option.none []).2 (now1 + 31) t2 = true := by
      simp only [can_alert, hlast, hmi]
      rw [if_neg (by linarith)]
      simp only [kind_cooldown_ok, hcds]
      rw [show List.lookup t2 [(t1, now1)] = Option.none by
        have hbe : (t2 == t1) = false := by simp [Ne.symm h12]
        simp [List.lookup, hbe]]
    rw [tryEmit, if_pos haccept]
    rfl

/-- C5 witness: the scenario at `c = 60`, `now1 = 0`, a ThresholdCrossing
followed by an Escalation. -/
theorem C5_cooldown_gate_witness :
    (tryEmit (initManager 60 30 false false) 0 AlertType.threshold_crossing
      Option.none []).1.isSome = true ∧
    (tryEmit (tryEmit (initManager 60 30 false false) 0 AlertType.threshold_crossing
        Option.none []).2 (0 + 10) AlertType.escalation Option.none []).1 =
      Option.none ∧
    (tryEmit (tryEmit (initManager 60 30 false false) 0 AlertType.threshold_crossing
        Option.none []).2 (0 + 31) AlertType.escalation Option.none []).1.isSome =
      true :=
  (C5_cooldown_gate 60 0 AlertType.threshold_crossing AlertType.escalation
    (by decide)).2.2.2.1

/-! ### History growth -/

/-- A run of `n` consecutive emissions, 60 s apart. -/
def emitIter : Nat → ManagerState
  | 0 => initManager 60 30 false false
  | n + 1 =>
    (emitLegacy (emitIter n) (60 * ((n : ℚ) + 1)) AlertType.threshold_crossing
      Option.none []).2

theorem emitIter_history_len (n : Nat) : (emitIter n).alertHistory.length = n := by
  induction n with
  | zero => rfl
  | succ n IH =>
    show ((emitIter n).alertHistory ++ [_]).length = n + 1
    rw [List.length_append, IH]
    rfl

/-- C7 counterexample: there is no fixed bound `N` that the history length
never exceeds — `_alert_history` is appended to on every emission and never
trimmed. -/
theorem C7_counterexample :
    ¬ ∃ N : Nat, ∀ n : Nat, (emitIter n).alertHistory.length ≤ N := by
  rintro ⟨N, h⟩
  have hN := h (N + 1)
  rw [emitIter_history_len] at hN
  omega

/-- C7 amended: the history list is append-only but unbounded (after `n`
emissions it holds `n` entries); only the `get_alert_history` accessor is
bounded, returning the most recent `limit` entries. -/
theorem C7_history_append_only :
    (∀ st (now : ℚ) t cr docs,
      ((emitLegacy st now t cr docs).2).alertHistory =
        st.alertHistory ++ [(emitLegacy st now t cr docs).1]) ∧
    (∀ n : Nat, (emitIter n).alertHistory.length = n) ∧
    (∀ st (limit : Nat), 0 < limit →
      (get_alert_history st limit).length ≤ limit ∧
      get_alert_history st limit =
        st.alertHistory.drop (st.alertHistory.length - limit)) := by
  refine ⟨fun st now t cr docs => rfl, emitIter_history_len, ?_⟩
  intro st limit hlim
  rw [get_alert_history, if_neg (by omega)]
  refine ⟨?_, rfl⟩
  rw [List.length_drop]
  omega

/-- C7 witness: the ten-entry view of a twelve-emission history. -/
theorem C7_history_append_only_witness :
    (get_alert_history (emitIter 12) 10).length ≤ 10 :=
  ((C7_history_append_only.2.2 (emitIter 12) 10 (by omega)).1)

/-! ### Alert-id uniqueness under the per-kind gate -/

/-- Feed a list of timestamped gated events through the manager, collecting
the emitted alerts. -/
def runEvents (st : ManagerState) (evs : List (ℚ × AlertType)) :
    ManagerState × List ProactiveAlert :=
  evs.foldl (fun acc ev =>
    ((tryEmit acc.1 ev.1 ev.2 Option.none []).2,
      acc.2 ++ (tryEmit acc.1 ev.1 ev.2 Option.none []).1.toList)) (st, [])

/-- Invariant tying each emitted alert's id to an emission time that the
per-kind cooldown map dominates. -/
def IdInv (st : ManagerState) (out : List ProactiveAlert) : Prop :=
  List.Pairwise (fun a b : ProactiveAlert => a.id ≠ b.id) out ∧
  ∀ a ∈ out, ∃ ta : ℚ, 0 ≤ ta ∧ a.id = mkAlertId a.alert_type ta ∧
    ∃ tl : ℚ, List.lookup a.alert_type st.cooldowns = some tl ∧ ta ≤ tl

theorem tryEmit_IdInv (st : ManagerState) (out : List ProactiveAlert)
    (now : ℚ) (t : AlertType) (cr : Option Crossing) (docs : List String)
    (hc : 1 ≤ st.cooldownSeconds) (hnow : 0 ≤ now) (hinv : IdInv st out) :
    IdInv (tryEmit st now t cr docs).2
      (out ++ (tryEmit st now t cr docs).1.toList) ∧
    (tryEmit st now t cr docs).2.cooldownSeconds = st.cooldownSeconds := by
  by_cases hca : can_alert st now t = true
  · have hemit : tryEmit st now t cr docs =
        (some (emitLegacy st now t cr docs).1, (emitLegacy st now t cr docs).2) := by
      rw [tryEmit, if_pos hca]
    rw [hemit]
    have hid : (emitLegacy st now t cr docs).1.id = mkAlertId t now := rfl
    have hty : (emitLegacy st now t cr docs).1.alert_type = t := rfl
    have hcds : (emitLegacy st now t cr docs).2.cooldowns =
        setCooldown st.cooldowns t now := rfl
    have hkind := kind_ok_spec st now t (can_alert_kind_ok st now t hca)
    refine ⟨⟨?_, ?_⟩, rfl⟩
    · rw [List.pairwise_append]
      refine ⟨hinv.1, by simp, ?_⟩
      intro b hb a2 ha2
      simp only [Option.toList_some, List.mem_singleton] at ha2
      subst ha2
      obtain ⟨ta, hta0, hbid, tl, hlk, htatl⟩ := hinv.2 b hb
      by_cases hbt : b.alert_type = t
      · rw [hbid, hid, hbt]
        rw [hbt] at hlk
        have hge := hkind tl hlk
        have h1 : ta + 1 ≤ now := by
          have h2 := not_lt.mp hge
          linarith
        exact mkAlertId_ne_of_time t ta now (pyInt_nonneg ta hta0)
          (pyInt_nonneg now hnow)
          (by have := pyInt_lt_of_add_one_le ta now hta0 h1; omega)
      · rw [hbid, hid]
        exact mkAlertId_ne_of_kind _ _ _ _ hbt
    · intro a ha
      rw [List.mem_append] at ha
      rcases ha with ha | ha
      · obtain ⟨ta, hta0, haid, tl, hlk, htatl⟩ := hinv.2 a ha
        by_cases hat : a.alert_type = t
        · refine ⟨ta, hta0, haid, now, ?_, ?_⟩
          · rw [hcds, hat, lookup_setCooldown_self]
          · rw [hat] at hlk
            have hge := not_lt.mp (hkind tl hlk)
            linarith
        · refine ⟨ta, hta0, haid, tl, ?_, htatl⟩
          rw [hcds, lookup_setCooldown_ne _ _ _ _ hat]
          exact hlk
      · simp only [Option.toList_some, List.mem_singleton] at ha
        subst ha
        refine ⟨now, hnow, by rw [hid, hty], now, ?_, le_refl now⟩
        rw [hcds, hty, lookup_setCooldown_self]
  · have hskip : tryEmit st now t cr docs = (Option.none, st) := by
      rw [tryEmit, if_neg (by rw [eq_false_of_ne_true hca]; simp)]
    rw [hskip]
    exact ⟨by simpa using hinv, rfl⟩

theorem runEvents_IdInv :
    ∀ (evs : List (ℚ × AlertType)) (st : ManagerState) (out : List ProactiveAlert),
      1 ≤ st.cooldownSeconds → (∀ p ∈ evs, 0 ≤ p.1) → IdInv st out →
      List.Pairwise (fun a b : ProactiveAlert => a.id ≠ b.id)
        (evs.foldl (fun acc ev =>
          ((tryEmit acc.1 ev.1 ev.2 Option.none []).2,
            acc.2 ++ (tryEmit acc.1 ev.1 ev.2 Option.none []).1.toList)) (st, out)).2 := by
  intro evs
  induction evs with
  | nil =>
    intro st out _ _ hinv
    exact hinv.1
  | cons ev rest IH =>
    intro st out hc htimes hinv
    simp only [List.foldl_cons]
    obtain ⟨hinv2, hcs⟩ := tryEmit_IdInv st out ev.1 ev.2 Option.none [] hc
      (htimes ev (by simp)) hinv
    exact IH _ _ (by rw [hcs]; exact hc) (fun p hp => htimes p (by simp [hp])) hinv2

/-- C8: distinct alerts created during a run carry distinct ids.  Kinds
differ → the id prefixes differ; same kind → the per-kind cooldown (≥ 1 s,
60 s in the game's configuration) separates the truncated `time.time()`
suffixes. -/
theorem C8_alert_ids_unique (cd mi : ℚ) (uai ai : Bool)
    (evs : List (ℚ × AlertType)) (hc : 1 ≤ cd) (htimes : ∀ p ∈ evs, 0 ≤ p.1) :
    List.Pairwise (fun a b : ProactiveAlert => a.id ≠ b.id)
      (runEvents (initManager cd mi uai ai) evs).2 :=
  runEvents_IdInv evs _ [] hc htimes ⟨List.Pairwise.nil, by simp⟩

/-- C8 witness: a concrete run of three gated events. -/
theorem C8_alert_ids_unique_witness :
    List.Pairwise (fun a b : ProactiveAlert => a.id ≠ b.id)
      (runEvents (initManager 60 30 false false)
        [(0, AlertType.threshold_crossing), (30, AlertType.escalation),
          (90, AlertType.threshold_crossing)]).2 :=
  C8_alert_ids_unique 60 30 false false _ (by decide) (by decide)

/-! ### Queue ordering (C2) -/

/-- C2 counterexample: with enqueue times 0, 1, 2 as timestamps, the two
priority-1 items of the sequence [1, 1, 0] dequeue in reverse enqueue
order — the heap is not stable, so the FIFO tie-break claim fails. -/
theorem C2_counterexample :
    heapPopAll (heapPushAll [] [⟨1, 0, "a", "a1", false⟩, ⟨1, 1, "b", "a2", false⟩,
        ⟨0, 2, "c", "a3", false⟩]) =
      [⟨0, 2, "c", "a3", false⟩, ⟨1, 1, "b", "a2", false⟩, ⟨1, 0, "a", "a1", false⟩] ∧
    ¬ List.Pairwise (fun a b : AudioQueueItem =>
        a.priority < b.priority ∨ (a.priority = b.priority ∧ a.timestamp < b.timestamp))
      (heapPopAll (heapPushAll [] [⟨1, 0, "a", "a1", false⟩, ⟨1, 1, "b", "a2", false⟩,
        ⟨0, 2, "c", "a3", false⟩])) := by
  have hcomp : heapPopAll (heapPushAll [] [⟨1, 0, "a", "a1", false⟩,
      ⟨1, 1, "b", "a2", false⟩, ⟨0, 2, "c", "a3", false⟩]) =
      [⟨0, 2, "c", "a3", false⟩, ⟨1, 1, "b", "a2", false⟩, ⟨1, 0, "a", "a1", false⟩] := by
    simp [heapPopAll, heapPopAllAux, heappop, heappush, heapPushAll, siftdown, siftup,
      siftdownAux, siftupAux, pickChild]
  refine ⟨hcomp, ?_⟩
  rw [hcomp]
  decide

/-- C2 amended: dequeuing drains the queue in weakly ascending priority
order (a permutation of what was enqueued), but equal-priority items may
come out in any order; on the spec's example [2, 0, 3, 0] the priorities do
come out as [0, 0, 2, 3] with the two zeros in enqueue order. -/
theorem C2_ascending_priority (items : List AudioQueueItem) :
    (heapPopAll (heapPushAll [] items)).Perm items ∧
    List.Pairwise (fun a b : AudioQueueItem => a.priority ≤ b.priority)
      (heapPopAll (heapPushAll [] items)) ∧
    (heapPopAll (heapPushAll [] [⟨2, 0, "a", "i1", false⟩, ⟨0, 1, "b", "i2", false⟩,
        ⟨3, 2, "c", "i3", false⟩, ⟨0, 3, "d", "i4", false⟩])).map
      AudioQueueItem.priority = [0, 0, 2, 3] ∧
    (heapPopAll (heapPushAll [] [⟨2, 0, "a", "i1", false⟩, ⟨0, 1, "b", "i2", false⟩,
        ⟨3, 2, "c", "i3", false⟩, ⟨0, 3, "d", "i4", false⟩])).map
      AudioQueueItem.timestamp = [1, 3, 0, 2] := by
  obtain ⟨hH, hperm⟩ := heapPushAll_isHeap_perm items [] isHeap_nil
  obtain ⟨hp2, hs⟩ := heapPopAllAux_perm_sorted (heapPushAll [] items).length
    (heapPushAll [] items) (le_refl _) hH
  have hcomp : heapPopAll (heapPushAll [] [⟨2, 0, "a", "i1", false⟩,
      ⟨0, 1, "b", "i2", false⟩, ⟨3, 2, "c", "i3", false⟩, ⟨0, 3, "d", "i4", false⟩]) =
      [⟨0, 1, "b", "i2", false⟩, ⟨0, 3, "d", "i4", false⟩, ⟨2, 0, "a", "i1", false⟩,
        ⟨3, 2, "c", "i3", false⟩] := by
    simp [heapPopAll, heapPopAllAux, heappop, heappush, heapPushAll, siftdown, siftup,
      siftdownAux, siftupAux, pickChild]
  refine ⟨?_, hs, ?_, ?_⟩
  · exact hp2.trans (hperm.trans (by simp))
  · rw [hcomp]
    rfl
  · rw [hcomp]
    rfl

/-! ### The narrator never plays (C9) -/

theorem playItem_inv (st : NarratorState) (item : AudioQueueItem) (ok : Bool)
    (h1 : st.currentPlayback = Option.none) (h2 : st.stats.interrupted = 0)
    (h3 : ∀ aid, NarratorEvent.interrupt aid ∉ st.events) :
    (playItem st item ok).currentPlayback = Option.none ∧
    (playItem st item ok).stats.interrupted = 0 ∧
    ∀ aid, NarratorEvent.interrupt aid ∉ (playItem st item ok).events := by
  simp only [playItem]
  split_ifs <;> refine ⟨h1, h2, ?_⟩ <;> intro aid hmem <;>
    first
      | exact h3 aid hmem
      | (simp only [List.mem_append, List.mem_singleton] at hmem
         rcases hmem with (hmem | hmem) | hmem
         · exact h3 aid hmem
         · exact absurd hmem (by simp)
         · exact absurd hmem (by simp))
      | (simp only [List.mem_append, List.mem_singleton] at hmem
         rcases hmem with hmem | hmem
         · exact h3 aid hmem
         · exact absurd hmem (by simp))

/-- C9: in every reachable narrator state the currently-playing handle is
still `None`, `is_playing` and `get_backend_info`'s `is_playing` report
`false`, the interrupted counter is 0 and the `on_interrupt` callback has
never fired — nothing in `audio_narrator.py` ever assigns
`_current_playback`. -/
theorem C9_narrator_never_plays (st : NarratorState) (h : NarratorReachable st) :
    st.currentPlayback = Option.none ∧ is_playing st = false ∧
    (get_backend_info st).isPlaying = false ∧ st.stats.interrupted = 0 ∧
    ∀ aid, NarratorEvent.interrupt aid ∉ st.events := by
  have key : st.currentPlayback = Option.none ∧ st.stats.interrupted = 0 ∧
      ∀ aid, NarratorEvent.interrupt aid ∉ st.events := by
    induction h with
    | init b => exact ⟨rfl, rfl, by simp [initNarrator]⟩
    | callbacks st s e i hst IH => exact IH
    | start st hst IH =>
      unfold narratorStart
      split_ifs <;> exact IH
    | stop st hst IH =>
      unfold narratorStop
      split_ifs <;> exact IH
    | speakStep st now text p aid intr hst IH =>
      unfold speak
      split_ifs with h1 h2
      · exact IH
      · exact IH
      · rw [if_neg (by simp [IH.1])]
        exact IH
    | play st ok hst IH =>
      unfold playbackStep
      split_ifs with h1
      · cases hp : heappop st.queue with
        | none => simpa [hp] using IH
        | some pr =>
          obtain ⟨item, rest⟩ := pr
          simp only [hp]
          exact playItem_inv _ item ok IH.1 IH.2.1 IH.2.2
      · exact IH
    | clear st hst IH => exact IH
  exact ⟨key.1, by simp [is_playing, key.1], by simp [get_backend_info, is_playing, key.1],
    key.2.1, key.2.2⟩

/-- C9 witness: the state after constructing a narrator, registering all
callbacks, starting it and speaking an interrupting critical alert. -/
theorem C9_narrator_never_plays_witness :
    is_playing (speak (narratorStart (setCallbacks (initNarrator TTSBackend.pyttsx3)
        true true true)) 0 "Evacuate now!" 0 "a1" true) = false ∧
    (speak (narratorStart (setCallbacks (initNarrator TTSBackend.pyttsx3)
        true true true)) 0 "Evacuate now!" 0 "a1" true).stats.interrupted = 0 :=
  have h := C9_narrator_never_plays _
    (NarratorReachable.speakStep _ 0 "Evacuate now!" 0 "a1" true
      (NarratorReachable.start _
        (NarratorReachable.callbacks _ true true true
          (NarratorReachable.init TTSBackend.pyttsx3))))
  ⟨h.2.1, h.2.2.2.1⟩

end FloodSim
